import Mathlib

/-!
Shallow embedding of the contrast-checker core from `src/app/routes/_index.tsx`.

JavaScript strings are modelled as `List Char`; JavaScript numbers are
modelled as real numbers (`ℝ`), with `**` as `Real.rpow`.  The `throw`
of `normalizeColor` is modelled by `Option` (the code has a single error
kind, "Invalid color").
-/

namespace ContrastChecker

/-- JavaScript strings, modelled as lists of characters. -/
abbrev JsStr := List Char

/-- ASCII fragment of the whitespace set removed by JavaScript
`String.prototype.trim` (space, tab, LF, CR, VT, FF). -/
def isJsWhitespace (c : Char) : Bool :=
  c.toNat = 32 || c.toNat = 9 || c.toNat = 10 || c.toNat = 13 ||
    c.toNat = 11 || c.toNat = 12

/-- Model of JavaScript `String.prototype.trim`: drop whitespace from both
ends. -/
def jsTrim (s : JsStr) : JsStr :=
  ((s.dropWhile isJsWhitespace).reverse.dropWhile isJsWhitespace).reverse

/-- ASCII case folding of a single character, as JavaScript
`String.prototype.toLowerCase` acts on ASCII: `A`..`Z` (codes 65..90) map
32 code points up, everything else is unchanged. -/
def jsToLowerChar (c : Char) : Char :=
  if 65 ≤ c.toNat ∧ c.toNat ≤ 90 then Char.ofNat (c.toNat + 32) else c

/-- Model of JavaScript `String.prototype.toLowerCase` (ASCII fragment). -/
def lowerStr (s : JsStr) : JsStr := s.map jsToLowerChar

/-- The fixed `namedColors` table of `_index.tsx`, lines 6-25. -/
def namedColors : List (JsStr × JsStr) :=
  [ ("red".data, "#ff0000".data)
  , ("blue".data, "#0000ff".data)
  , ("green".data, "#008000".data)
  , ("black".data, "#000000".data)
  , ("white".data, "#ffffff".data)
  , ("gray".data, "#808080".data)
  , ("silver".data, "#c0c0c0".data)
  , ("lime".data, "#00ff00".data)
  , ("navy".data, "#000080".data)
  , ("maroon".data, "#800000".data)
  , ("purple".data, "#800080".data)
  , ("olive".data, "#808000".data)
  , ("teal".data, "#008080".data)
  , ("aqua".data, "#00ffff".data)
  , ("yellow".data, "#ffff00".data)
  , ("fuchsia".data, "#ff00ff".data)
  , ("orange".data, "#ffa500".data)
  ]

/-- Model of the JavaScript property access `namedColors[val]` used
truthily (every value of the table is a nonempty string). -/
def lookupNamed (key : JsStr) : List (JsStr × JsStr) → Option JsStr
  | [] => none
  | (k, v) :: rest => if key = k then some v else lookupNamed key rest

/-- Character class `[0-9a-f]` of the regex on line 38
(`0`..`9` are codes 48..57, `a`..`f` are codes 97..102). -/
def isLowerHex (c : Char) : Bool :=
  (48 ≤ c.toNat && c.toNat ≤ 57) || (97 ≤ c.toNat && c.toNat ≤ 102)

/-- The regex test `/^#[0-9a-f]\x7b6\x7d$/.test(val)` of line 38: the
anchored pattern holds exactly when the first character is `#` and the
rest is 6 characters of `[0-9a-f]`. -/
def matchesHexPattern (s : JsStr) : Bool :=
  s.head? == some '#' && s.tail.length == 6 && s.tail.all isLowerHex

/-- JavaScript `val.startsWith("#")` (line 34). -/
def startsWithHash (s : JsStr) : Bool :=
  s.head? == some '#'

/-- JavaScript `val.replace(/^#/, "")` (line 35): the regex is anchored
and not global, so it removes one leading `#` if present. -/
def stripOneHash (s : JsStr) : JsStr :=
  if s.head? == some '#' then s.tail else s

/-- The validation step of lines 38-41: return the candidate string when
it matches the hex pattern, otherwise fail. -/
def validateHex (val : JsStr) : Option JsStr :=
  if matchesHexPattern val then some val else none

/-- `normalizeColor` (lines 27-42).  `none` models the thrown
`Error("Invalid color")`, the single error kind of the core: the trimmed,
lowercased input is looked up in the named-color table; if absent, a `#`
is re-anchored (prepended unless already present) and the result is
validated against the hex pattern. -/
def normalizeColor (input : JsStr) : Option JsStr :=
  (lookupNamed (lowerStr (jsTrim input)) namedColors).orElse fun _ =>
    validateHex
      (if startsWithHash (lowerStr (jsTrim input)) then lowerStr (jsTrim input)
       else '#' :: stripOneHash (lowerStr (jsTrim input)))

/-- `toLinear` (lines 44-47), over ideal real arithmetic; `**` is
`Real.rpow`. -/
noncomputable def toLinear (value : ℝ) : ℝ :=
  let v := value / 255
  if v ≤ 0.03928 then v / 12.92 else ((v + 0.055) / 1.055) ^ (2.4 : ℝ)

/-- Value of one hex digit, as `Number.parseInt(_, 16)` assigns it
(`0`..`9` are codes 48..57, `a`..`f` codes 97..102, `A`..`F` codes
65..70); other characters yield 0 (they never occur on validated input). -/
def hexDigitVal (c : Char) : ℕ :=
  if 48 ≤ c.toNat ∧ c.toNat ≤ 57 then c.toNat - 48
  else if 97 ≤ c.toNat ∧ c.toNat ≤ 102 then c.toNat - 87
  else if 65 ≤ c.toNat ∧ c.toNat ≤ 70 then c.toNat - 55
  else 0

/-- `Number.parseInt(hex.slice(i, i+2), 16)`: the two-hex-digit byte at
position `i` of the string. -/
def hexByte (hex : JsStr) (i : ℕ) : ℕ :=
  16 * hexDigitVal (hex.getD i '0') + hexDigitVal (hex.getD (i + 1) '0')

/-- `relativeLuminance` (lines 49-57). -/
noncomputable def relativeLuminance (hex : JsStr) : ℝ :=
  let r : ℝ := hexByte hex 1
  let g : ℝ := hexByte hex 3
  let b : ℝ := hexByte hex 5
  0.2126 * toLinear r + 0.7152 * toLinear g + 0.0722 * toLinear b

/-- `contrastRatio` (lines 59-65). -/
noncomputable def contrastRatio (fgHex bgHex : JsStr) : ℝ :=
  let fgLum := relativeLuminance fgHex
  let bgLum := relativeLuminance bgHex
  let L1 := max fgLum bgLum
  let L2 := min fgLum bgLum
  (L1 + 0.05) / (L2 + 0.05)

/-- The three compliance tiers `"AAA" | "AA" | "Fail"`. -/
inductive Level where
  | AAA
  | AA
  | Fail
deriving DecidableEq

/-- `complianceLevel` (lines 67-71): thresholds for normal text. -/
noncomputable def complianceLevel (ratio : ℝ) : Level :=
  if ratio ≥ 7 then .AAA
  else if ratio ≥ 4.5 then .AA
  else .Fail

/-- `complianceLevelLarge` (lines 73-77): thresholds for large text. -/
noncomputable def complianceLevelLarge (ratio : ℝ) : Level :=
  if ratio ≥ 4.5 then .AAA
  else if ratio ≥ 3 then .AA
  else .Fail

/-- The success payload of the `action` (the `ActionData` success arm). -/
structure EvalResult where
  contrastRatio : ℝ
  levelSmall : Level
  levelLarge : Level
  fg : JsStr
  bg : JsStr

/-- The computational core of the `action` (lines 91-110): normalize both
inputs, compute the ratio and the two levels; any normalization failure
is caught and reported as the single error (`none`). -/
noncomputable def evaluate (fgInput bgInput : JsStr) : Option EvalResult :=
  match normalizeColor fgInput, normalizeColor bgInput with
  | some fg, some bg =>
      let ratio := contrastRatio fg bg
      some { contrastRatio := ratio
           , levelSmall := complianceLevel ratio
           , levelLarge := complianceLevelLarge ratio
           , fg := fg
           , bg := bg }
  | _, _ => none

/-- Character class `[0-9a-fA-F]` (the case-insensitive reading of the hex
pattern, used to state the mixed-case claims). -/
def isAnyCaseHex (c : Char) : Bool :=
  isLowerHex c || (65 ≤ c.toNat && c.toNat ≤ 70)

/-- A well-formed 6-digit lowercase hex code, with or without a single
leading `#`. -/
def isWellFormedHexCode (s : JsStr) : Bool :=
  (s.length == 6 && s.all isLowerHex) || matchesHexPattern s

/-- A JavaScript value as it can actually flow out of `normalizeColor` at
runtime: a string, or a truthy non-string object inherited from
`Object.prototype` (tagged with the property name that produced it). -/
inductive JsValue where
  | str (s : JsStr)
  | obj (propName : JsStr)
deriving DecidableEq

/-- The inherited `Object.prototype` member names that the lookup key can
actually hit: the key is already lowercased, and among the prototype's
properties (`constructor`, `hasOwnProperty`, `isPrototypeOf`,
`propertyIsEnumerable`, `toLocaleString`, `toString`, `valueOf`,
`__proto__`, the four `__define`/`__lookup` accessors) only `constructor`
and `__proto__` are spelled entirely in lowercase.  Both are truthy
non-string objects (`Object` itself, and `Object.prototype`). -/
def objectProtoNames : List JsStr :=
  ["constructor".data, "__proto__".data]

/-- The JavaScript property access `namedColors[val]` with the prototype
chain included: an own key yields its string value, and the reachable
inherited `Object.prototype` members yield truthy non-string objects. -/
def lookupNamedJs (key : JsStr) : Option JsValue :=
  match lookupNamed key namedColors with
  | some v => some (JsValue.str v)
  | none => if key ∈ objectProtoNames then some (JsValue.obj key) else none

/-- `normalizeColor` (lines 27-42) with the line-30 property access
modelled faithfully, prototype chain included: on the keys `constructor`
and `__proto__` the truthy inherited object is returned as-is, without a
throw, the declared `: string` return type notwithstanding. -/
def normalizeColorJs (input : JsStr) : Option JsValue :=
  (lookupNamedJs (lowerStr (jsTrim input))).orElse fun _ =>
    (validateHex
      (if startsWithHash (lowerStr (jsTrim input)) then lowerStr (jsTrim input)
       else '#' :: stripOneHash (lowerStr (jsTrim input)))).map JsValue.str

section Helpers

theorem char_toNat_ofNat {n : ℕ} (h : n < 55296) : (Char.ofNat n).toNat = n := by
  unfold Char.ofNat
  rw [dif_pos (Or.inl h)]
  unfold Char.ofNatAux Char.toNat
  simp [UInt32.toNat, BitVec.toNat_ofNatLt]

theorem isLowerHex_iff {c : Char} :
    isLowerHex c = true ↔
      (48 ≤ c.toNat ∧ c.toNat ≤ 57) ∨ (97 ≤ c.toNat ∧ c.toNat ≤ 102) := by
  simp [isLowerHex]

theorem not_ws_of_isLowerHex {c : Char} (h : isLowerHex c = true) :
    isJsWhitespace c = false := by
  rcases isLowerHex_iff.1 h with h' | h' <;>
    · simp only [isJsWhitespace, Bool.or_eq_false_iff, decide_eq_false_iff_not]
      omega

theorem jsToLowerChar_of_isLowerHex {c : Char} (h : isLowerHex c = true) :
    jsToLowerChar c = c := by
  unfold jsToLowerChar
  rw [if_neg]
  rcases isLowerHex_iff.1 h with h' | h' <;> omega

theorem isLowerHex_jsToLowerChar {c : Char} (h : isAnyCaseHex c = true) :
    isLowerHex (jsToLowerChar c) = true := by
  have h' : isLowerHex c = true ∨ (65 ≤ c.toNat ∧ c.toNat ≤ 70) := by
    simpa [isAnyCaseHex] using h
  unfold jsToLowerChar
  split
  · next hc =>
      have h70 : 65 ≤ c.toNat ∧ c.toNat ≤ 70 := by
        rcases h' with h'' | h''
        · rcases isLowerHex_iff.1 h'' with h3 | h3 <;> omega
        · exact h''
      rw [isLowerHex_iff, char_toNat_ofNat (by omega)]
      omega
  · next hc =>
      rcases h' with h'' | h''
      · exact h''
      · exact absurd ⟨h''.1, le_trans h''.2 (by omega)⟩ hc

theorem dropWhile_eq_self_of {p : Char → Bool} {l : List Char}
    (h : ∀ c ∈ l, p c = false) : l.dropWhile p = l := by
  cases l with
  | nil => rfl
  | cons a t => simp [List.dropWhile_cons, h a (List.mem_cons_self a t)]

theorem jsTrim_eq_self {l : JsStr} (h : ∀ c ∈ l, isJsWhitespace c = false) :
    jsTrim l = l := by
  unfold jsTrim
  rw [dropWhile_eq_self_of h,
    dropWhile_eq_self_of (fun c hc => h c (List.mem_reverse.1 hc)),
    List.reverse_reverse]

theorem lowerStr_eq_self {l : JsStr} (h : ∀ c ∈ l, jsToLowerChar c = c) :
    lowerStr l = l := by
  induction l with
  | nil => rfl
  | cons a t ih =>
      simp only [lowerStr, List.map_cons]
      rw [h a (List.mem_cons_self a t)]
      exact congrArg _ (ih fun c hc => h c (List.mem_cons_of_mem a hc))

theorem lookupNamed_mem {l : List (JsStr × JsStr)} {k v : JsStr}
    (h : lookupNamed k l = some v) : (k, v) ∈ l := by
  induction l with
  | nil => simp [lookupNamed] at h
  | cons p t ih =>
      obtain ⟨pk, pv⟩ := p
      unfold lookupNamed at h
      split at h
      · next heq =>
          obtain rfl : pv = v := Option.some.inj h
          subst heq
          exact List.mem_cons_self _ _
      · exact List.mem_cons_of_mem _ (ih h)

theorem lookupNamed_none_of_hash {s : JsStr} :
    lookupNamed ('#' :: s) namedColors = none := by
  cases hl : lookupNamed ('#' :: s) namedColors with
  | none => rfl
  | some v =>
      exfalso
      have hk : ∀ p ∈ namedColors, p.1.head? ≠ some '#' := by decide
      exact hk _ (lookupNamed_mem hl) rfl

theorem lookupNamed_none_of_lowerHex {s : JsStr}
    (h : ∀ c ∈ s, isLowerHex c = true) :
    lookupNamed s namedColors = none := by
  cases hl : lookupNamed s namedColors with
  | none => rfl
  | some v =>
      exfalso
      have hk : ∀ p ∈ namedColors, ∃ c ∈ p.1, isLowerHex c = false := by decide
      obtain ⟨c, hc, hcf⟩ := hk _ (lookupNamed_mem hl)
      rw [h c hc] at hcf
      exact Bool.noConfusion hcf

theorem matchesHexPattern_cons {c : Char} {t : JsStr} :
    matchesHexPattern (c :: t) = ((c == '#') && t.length == 6 && t.all isLowerHex) := rfl

theorem matchesHexPattern_intro {rest : JsStr} (h6 : rest.length = 6)
    (hall : ∀ c ∈ rest, isLowerHex c = true) :
    matchesHexPattern ('#' :: rest) = true := by
  rw [matchesHexPattern_cons]
  simp only [Bool.and_eq_true, beq_iff_eq, List.all_eq_true]
  exact ⟨⟨trivial, h6⟩, hall⟩

theorem matchesHexPattern_elim {s : JsStr} (h : matchesHexPattern s = true) :
    s = '#' :: s.tail ∧ s.tail.length = 6 ∧ ∀ c ∈ s.tail, isLowerHex c = true := by
  cases s with
  | nil => exact absurd h (by decide)
  | cons c t =>
      rw [matchesHexPattern_cons] at h
      simp only [Bool.and_eq_true, beq_iff_eq, List.all_eq_true] at h
      obtain ⟨⟨rfl, h6⟩, hall⟩ := h
      exact ⟨rfl, h6, hall⟩

theorem startsWithHash_elim {s : JsStr} (h : startsWithHash s = true) :
    s = '#' :: s.tail := by
  cases s with
  | nil => exact absurd h (by decide)
  | cons c t =>
      simp only [startsWithHash, List.head?_cons, beq_iff_eq, Option.some.injEq] at h
      rw [h]
      rfl

theorem stripOneHash_of_not_hash {s : JsStr} (h : startsWithHash s = false) :
    stripOneHash s = s := by
  unfold stripOneHash
  simp only [startsWithHash] at h
  simp [h]

theorem matchesHexPattern_of_not_hash {s : JsStr} (h : startsWithHash s = false) :
    matchesHexPattern s = false := by
  unfold matchesHexPattern
  simp only [startsWithHash] at h
  simp [h]

theorem validateHex_arm_eq (val : JsStr) :
    matchesHexPattern (if startsWithHash val then val else '#' :: stripOneHash val) =
      isWellFormedHexCode val := by
  unfold isWellFormedHexCode
  by_cases hsw : startsWithHash val = true
  · rw [if_pos hsw]
    have hv := startsWithHash_elim hsw
    have hA : (val.length == 6 && val.all isLowerHex) = false := by
      rw [hv, List.all_cons]
      have h35 : isLowerHex '#' = false := by decide
      simp [h35]
    rw [hA, Bool.false_or]
  · have hsw' : startsWithHash val = false := by simpa using hsw
    rw [if_neg hsw, stripOneHash_of_not_hash hsw',
      matchesHexPattern_of_not_hash hsw', Bool.or_false, matchesHexPattern_cons]
    simp

theorem validateHex_eq_some {val r : JsStr} (h : validateHex val = some r) :
    matchesHexPattern r = true := by
  unfold validateHex at h
  split at h
  · next hm => obtain rfl := Option.some.inj h; exact hm
  · exact absurd h (by simp)

theorem validateHex_isSome (val : JsStr) :
    (validateHex val).isSome = matchesHexPattern val := by
  cases hm : matchesHexPattern val <;> simp [validateHex, hm]

theorem normalizeColor_isSome_eq (s : JsStr) :
    (normalizeColor s).isSome =
      ((lookupNamed (lowerStr (jsTrim s)) namedColors).isSome ||
        isWellFormedHexCode (lowerStr (jsTrim s))) := by
  unfold normalizeColor
  cases hl : lookupNamed (lowerStr (jsTrim s)) namedColors with
  | some hex => simp [hl]
  | none => simp [hl, validateHex_isSome, validateHex_arm_eq]

theorem normalizeColor_matches {s r : JsStr} (h : normalizeColor s = some r) :
    matchesHexPattern r = true := by
  unfold normalizeColor at h
  cases hl : lookupNamed (lowerStr (jsTrim s)) namedColors with
  | some hex =>
      rw [hl] at h
      simp only [Option.some_orElse'] at h
      obtain rfl := Option.some.inj h
      have hv : ∀ p ∈ namedColors, matchesHexPattern p.2 = true := by decide
      exact hv _ (lookupNamed_mem hl)
  | none =>
      rw [hl] at h
      simp only [Option.none_orElse'] at h
      exact validateHex_eq_some h

theorem normalizeColor_of_matches {r : JsStr} (h : matchesHexPattern r = true) :
    normalizeColor r = some r := by
  obtain ⟨hr, h6, hall⟩ := matchesHexPattern_elim h
  have hchars : ∀ c ∈ r, c = '#' ∨ isLowerHex c = true := by
    intro c hc
    rw [hr] at hc
    rcases List.mem_cons.1 hc with rfl | hc'
    · exact Or.inl rfl
    · exact Or.inr (hall c hc')
  have htrim : jsTrim r = r := jsTrim_eq_self (by
    intro c hc
    rcases hchars c hc with rfl | hx
    · decide
    · exact not_ws_of_isLowerHex hx)
  have hlower : lowerStr r = r := lowerStr_eq_self (by
    intro c hc
    rcases hchars c hc with rfl | hx
    · decide
    · exact jsToLowerChar_of_isLowerHex hx)
  have hlk : lookupNamed r namedColors = none := by
    rw [hr]; exact lookupNamed_none_of_hash
  have hsw : startsWithHash r = true := by rw [hr]; rfl
  unfold normalizeColor
  rw [htrim, hlower, hlk]
  simp only [Option.none_orElse']
  rw [if_pos hsw]
  unfold validateHex
  rw [if_pos h]

theorem startsWithHash_false_of_lowerHex {s : JsStr}
    (h : ∀ c ∈ s, isLowerHex c = true) : startsWithHash s = false := by
  cases s with
  | nil => rfl
  | cons c t =>
      have hc := h c (List.mem_cons_self c t)
      have hne : c ≠ '#' := by
        intro hEq
        rw [hEq] at hc
        exact absurd hc (by decide)
      simp [startsWithHash, hne]

theorem not_ws_of_isAnyCaseHex {c : Char} (h : isAnyCaseHex c = true) :
    isJsWhitespace c = false := by
  have h' : isLowerHex c = true ∨ (65 ≤ c.toNat ∧ c.toNat ≤ 70) := by
    simpa [isAnyCaseHex] using h
  rcases h' with h'' | h''
  · exact not_ws_of_isLowerHex h''
  · simp only [isJsWhitespace, Bool.or_eq_false_iff, decide_eq_false_iff_not]
    omega

theorem hexDigitVal_le (c : Char) : hexDigitVal c ≤ 15 := by
  unfold hexDigitVal
  split
  · omega
  · split
    · omega
    · split <;> omega

theorem hexByte_le (hex : JsStr) (i : ℕ) : hexByte hex i ≤ 255 := by
  unfold hexByte
  have h1 := hexDigitVal_le (hex.getD i '0')
  have h2 := hexDigitVal_le (hex.getD (i + 1) '0')
  omega

theorem toLinear_nonneg {value : ℝ} (h0 : 0 ≤ value) : 0 ≤ toLinear value := by
  simp only [toLinear]
  split
  · exact div_nonneg (div_nonneg h0 (by norm_num)) (by norm_num)
  · exact Real.rpow_nonneg
      (div_nonneg (by positivity) (by norm_num)) _

theorem toLinear_le_one {value : ℝ} (h0 : 0 ≤ value) (h1 : value ≤ 255) :
    toLinear value ≤ 1 := by
  have hv1 : value / 255 ≤ 1 := by
    rw [div_le_one (by norm_num)]
    exact h1
  simp only [toLinear]
  split
  · next h =>
      rw [div_le_one (by norm_num)]
      linarith
  · next h =>
      apply Real.rpow_le_one
      · positivity
      · rw [div_le_one (by norm_num)]
        linarith
      · norm_num

theorem relativeLuminance_nonneg (hex : JsStr) : 0 ≤ relativeLuminance hex := by
  simp only [relativeLuminance]
  have h1 : 0 ≤ toLinear (hexByte hex 1 : ℝ) := toLinear_nonneg (Nat.cast_nonneg _)
  have h3 : 0 ≤ toLinear (hexByte hex 3 : ℝ) := toLinear_nonneg (Nat.cast_nonneg _)
  have h5 : 0 ≤ toLinear (hexByte hex 5 : ℝ) := toLinear_nonneg (Nat.cast_nonneg _)
  linarith

theorem relativeLuminance_le_one (hex : JsStr) : relativeLuminance hex ≤ 1 := by
  simp only [relativeLuminance]
  have hc1 : ((hexByte hex 1 : ℕ) : ℝ) ≤ 255 := by exact_mod_cast hexByte_le hex 1
  have hc3 : ((hexByte hex 3 : ℕ) : ℝ) ≤ 255 := by exact_mod_cast hexByte_le hex 3
  have hc5 : ((hexByte hex 5 : ℕ) : ℝ) ≤ 255 := by exact_mod_cast hexByte_le hex 5
  have h1 := toLinear_le_one (Nat.cast_nonneg (hexByte hex 1)) hc1
  have h3 := toLinear_le_one (Nat.cast_nonneg (hexByte hex 3)) hc3
  have h5 := toLinear_le_one (Nat.cast_nonneg (hexByte hex 5)) hc5
  linarith

theorem contrastRatio_comm (a b : JsStr) : contrastRatio a b = contrastRatio b a := by
  simp only [contrastRatio]
  rw [max_comm, min_comm]

theorem contrastRatio_bounds (a b : JsStr) :
    1 ≤ contrastRatio a b ∧ contrastRatio a b ≤ 21 := by
  simp only [contrastRatio]
  have ha0 := relativeLuminance_nonneg a
  have ha1 := relativeLuminance_le_one a
  have hb0 := relativeLuminance_nonneg b
  have hb1 := relativeLuminance_le_one b
  have hmin0 : 0 ≤ min (relativeLuminance a) (relativeLuminance b) := le_min ha0 hb0
  have hmax1 : max (relativeLuminance a) (relativeLuminance b) ≤ 1 := max_le ha1 hb1
  have hmm : min (relativeLuminance a) (relativeLuminance b) ≤
      max (relativeLuminance a) (relativeLuminance b) := min_le_max
  have hden : (0:ℝ) < min (relativeLuminance a) (relativeLuminance b) + 0.05 := by
    linarith
  constructor
  · rw [le_div_iff₀ hden]
    linarith
  · rw [div_le_iff₀ hden]
    linarith

theorem toLinear_zero : toLinear 0 = 0 := by
  simp only [toLinear]
  rw [if_pos (by norm_num)]
  norm_num

theorem toLinear_255 : toLinear 255 = 1 := by
  have hbase : ((255:ℝ)/255 + 0.055)/1.055 = 1 := by norm_num
  simp only [toLinear]
  rw [if_neg (by norm_num), hbase, Real.one_rpow]

theorem relativeLuminance_white : relativeLuminance "#ffffff".data = 1 := by
  have h1 : hexByte "#ffffff".data 1 = 255 := by decide
  have h3 : hexByte "#ffffff".data 3 = 255 := by decide
  have h5 : hexByte "#ffffff".data 5 = 255 := by decide
  simp only [relativeLuminance, h1, h3, h5]
  push_cast
  rw [toLinear_255]
  norm_num

theorem relativeLuminance_black : relativeLuminance "#000000".data = 0 := by
  have h1 : hexByte "#000000".data 1 = 0 := by decide
  have h3 : hexByte "#000000".data 3 = 0 := by decide
  have h5 : hexByte "#000000".data 5 = 0 := by decide
  simp only [relativeLuminance, h1, h3, h5]
  push_cast
  rw [toLinear_zero]
  norm_num

theorem relativeLuminance_red : relativeLuminance "#ff0000".data = 0.2126 := by
  have h1 : hexByte "#ff0000".data 1 = 255 := by decide
  have h3 : hexByte "#ff0000".data 3 = 0 := by decide
  have h5 : hexByte "#ff0000".data 5 = 0 := by decide
  simp only [relativeLuminance, h1, h3, h5]
  push_cast
  rw [toLinear_255, toLinear_zero]
  norm_num

theorem contrastRatio_white_black :
    contrastRatio "#ffffff".data "#000000".data = 21 := by
  unfold contrastRatio
  rw [relativeLuminance_white, relativeLuminance_black]
  norm_num [max_def, min_def]

theorem contrastRatio_white_white :
    contrastRatio "#ffffff".data "#ffffff".data = 1 := by
  unfold contrastRatio
  rw [relativeLuminance_white]
  norm_num [max_def, min_def]

theorem contrastRatio_red_white :
    contrastRatio "#ff0000".data "#ffffff".data = 1.05 / 0.2626 := by
  unfold contrastRatio
  rw [relativeLuminance_red, relativeLuminance_white]
  norm_num [max_def, min_def]

theorem complianceLevel_eq_AAA {r : ℝ} (h : 7 ≤ r) : complianceLevel r = .AAA := by
  simp only [complianceLevel]
  rw [if_pos h]

theorem complianceLevel_eq_AA {r : ℝ} (h1 : 4.5 ≤ r) (h2 : r < 7) :
    complianceLevel r = .AA := by
  simp only [complianceLevel]
  rw [if_neg (not_le.mpr h2), if_pos h1]

theorem complianceLevel_eq_Fail {r : ℝ} (h : r < 4.5) : complianceLevel r = .Fail := by
  simp only [complianceLevel]
  rw [if_neg (not_le.mpr (by linarith)), if_neg (not_le.mpr h)]

theorem complianceLevelLarge_eq_AAA {r : ℝ} (h : 4.5 ≤ r) :
    complianceLevelLarge r = .AAA := by
  simp only [complianceLevelLarge]
  rw [if_pos h]

theorem complianceLevelLarge_eq_AA {r : ℝ} (h1 : 3 ≤ r) (h2 : r < 4.5) :
    complianceLevelLarge r = .AA := by
  simp only [complianceLevelLarge]
  rw [if_neg (not_le.mpr h2), if_pos h1]

theorem complianceLevelLarge_eq_Fail {r : ℝ} (h : r < 3) :
    complianceLevelLarge r = .Fail := by
  simp only [complianceLevelLarge]
  rw [if_neg (not_le.mpr (by linarith)), if_neg (not_le.mpr h)]

theorem normalizeColor_of_bare_hex {ds : JsStr} (h6 : ds.length = 6)
    (hall : ∀ c ∈ ds, isLowerHex c = true) :
    normalizeColor ds = some ('#' :: ds) := by
  have htrim : jsTrim ds = ds :=
    jsTrim_eq_self (fun c hc => not_ws_of_isLowerHex (hall c hc))
  have hlower : lowerStr ds = ds :=
    lowerStr_eq_self (fun c hc => jsToLowerChar_of_isLowerHex (hall c hc))
  have hsw : startsWithHash ds = false := startsWithHash_false_of_lowerHex hall
  unfold normalizeColor
  rw [htrim, hlower, lookupNamed_none_of_lowerHex hall]
  simp only [Option.none_orElse']
  rw [if_neg (by simp [hsw]), stripOneHash_of_not_hash hsw]
  unfold validateHex
  rw [if_pos (matchesHexPattern_intro h6 hall)]

theorem matchesHexPattern_double_hash (t : JsStr) :
    matchesHexPattern ('#' :: '#' :: t) = false := by
  rw [matchesHexPattern_cons]
  have h35 : isLowerHex '#' = false := by decide
  simp [h35]

theorem normalizeColor_double_hash {t : JsStr}
    (hchars : ∀ c ∈ t, c = '#' ∨ isLowerHex c = true) :
    normalizeColor ('#' :: '#' :: t) = none := by
  have hchars' : ∀ c ∈ '#' :: '#' :: t, c = '#' ∨ isLowerHex c = true := by
    intro c hc
    rcases List.mem_cons.1 hc with rfl | hc'
    · exact Or.inl rfl
    rcases List.mem_cons.1 hc' with rfl | hc''
    · exact Or.inl rfl
    · exact hchars c hc''
  have htrim : jsTrim ('#' :: '#' :: t) = '#' :: '#' :: t := jsTrim_eq_self (by
    intro c hc
    rcases hchars' c hc with rfl | hx
    · decide
    · exact not_ws_of_isLowerHex hx)
  have hlower : lowerStr ('#' :: '#' :: t) = '#' :: '#' :: t := lowerStr_eq_self (by
    intro c hc
    rcases hchars' c hc with rfl | hx
    · decide
    · exact jsToLowerChar_of_isLowerHex hx)
  unfold normalizeColor
  rw [htrim, hlower, lookupNamed_none_of_hash]
  simp only [Option.none_orElse']
  rw [if_pos (show startsWithHash ('#' :: '#' :: t) = true from rfl)]
  unfold validateHex
  rw [if_neg (by simp [matchesHexPattern_double_hash])]

theorem normalizeColor_replicate_hash {ds : JsStr}
    (hall : ∀ c ∈ ds, isLowerHex c = true) (m : ℕ) :
    normalizeColor (List.replicate (m + 2) '#' ++ ds) = none := by
  have hrep : List.replicate (m + 2) '#' ++ ds
      = '#' :: '#' :: (List.replicate m '#' ++ ds) := by
    simp [List.replicate_succ]
  rw [hrep]
  apply normalizeColor_double_hash
  intro c hc
  rcases List.mem_append.1 hc with hc' | hc'
  · exact Or.inl (List.eq_of_mem_replicate hc')
  · exact Or.inr (hall c hc')

theorem lowerStr_anycase_all {ds : JsStr} (hall : ∀ c ∈ ds, isAnyCaseHex c = true) :
    ∀ c ∈ lowerStr ds, isLowerHex c = true := by
  intro c hc
  obtain ⟨d, hd, rfl⟩ := List.mem_map.1 hc
  exact isLowerHex_jsToLowerChar (hall d hd)

theorem normalizeColor_hash_anycase {ds : JsStr} (h6 : ds.length = 6)
    (hall : ∀ c ∈ ds, isAnyCaseHex c = true) :
    normalizeColor ('#' :: ds) = some ('#' :: lowerStr ds) := by
  have htrim : jsTrim ('#' :: ds) = '#' :: ds := jsTrim_eq_self (by
    intro c hc
    rcases List.mem_cons.1 hc with rfl | hc'
    · decide
    · exact not_ws_of_isAnyCaseHex (hall c hc'))
  have hlow35 : jsToLowerChar '#' = '#' := by decide
  have hlower : lowerStr ('#' :: ds) = '#' :: lowerStr ds := by
    simp only [lowerStr, List.map_cons, hlow35]
  have hall' := lowerStr_anycase_all hall
  have h6' : (lowerStr ds).length = 6 := by simp [lowerStr, h6]
  unfold normalizeColor
  rw [htrim, hlower, lookupNamed_none_of_hash]
  simp only [Option.none_orElse']
  rw [if_pos (show startsWithHash ('#' :: lowerStr ds) = true from rfl)]
  unfold validateHex
  rw [if_pos (matchesHexPattern_intro h6' hall')]

theorem normalizeColor_bare_anycase {ds : JsStr} (h6 : ds.length = 6)
    (hall : ∀ c ∈ ds, isAnyCaseHex c = true) :
    normalizeColor ds = some ('#' :: lowerStr ds) := by
  have htrim : jsTrim ds = ds :=
    jsTrim_eq_self (fun c hc => not_ws_of_isAnyCaseHex (hall c hc))
  have hall' := lowerStr_anycase_all hall
  have h6' : (lowerStr ds).length = 6 := by simp [lowerStr, h6]
  have hsw : startsWithHash (lowerStr ds) = false :=
    startsWithHash_false_of_lowerHex hall'
  unfold normalizeColor
  rw [htrim, lookupNamed_none_of_lowerHex hall']
  simp only [Option.none_orElse']
  rw [if_neg (by simp [hsw]), stripOneHash_of_not_hash hsw]
  unfold validateHex
  rw [if_pos (matchesHexPattern_intro h6' hall')]

theorem normalizeColorJs_agrees {s : JsStr}
    (h : lowerStr (jsTrim s) ∉ objectProtoNames) :
    normalizeColorJs s = (normalizeColor s).map JsValue.str := by
  unfold normalizeColorJs normalizeColor lookupNamedJs
  cases hl : lookupNamed (lowerStr (jsTrim s)) namedColors with
  | some v => simp [hl, Option.some_orElse', Option.none_orElse']
  | none => simp [hl, h, Option.some_orElse', Option.none_orElse']

end Helpers

section Claims

/-- C1 (code bug): the claim says every input that is neither a table key
nor a well-formed 6-digit hex code fails with the single error kind, but
with the line-30 property access modelled faithfully the input
`" CONSTRUCTOR "` — which trims and lowercases to `constructor`, is no
key of the table and is no hex code — does not fail: the lookup finds the
truthy inherited `Object.prototype.constructor` and returns it. -/
theorem normalize_constructor_bug :
    normalizeColorJs " CONSTRUCTOR ".data = some (JsValue.obj "constructor".data) ∧
    lookupNamed (lowerStr (jsTrim " CONSTRUCTOR ".data)) namedColors = none ∧
    isWellFormedHexCode (lowerStr (jsTrim " CONSTRUCTOR ".data)) = false := by
  refine ⟨?_, ?_, ?_⟩ <;> decide

/-- C2 counterexample: `"##abc123"` is one-or-more `#` characters followed
by 6 lowercase hex digits, yet `normalizeColor` rejects it — the code
never strips repeated leading `#` characters. -/
theorem normalize_multi_hash_counterexample :
    normalizeColor "##abc123".data = none := by decide

/-- C2 (amended): in the hex branch the algorithm prepends a single `#`
only when the value does not already start with `#` (the anchored
single-`#` replacement is then a no-op), so a string of exactly one `#`
(or none) followed by 6 lowercase hex digits normalizes to `#` followed
by those digits, while a string of two or more leading `#` characters
followed by those digits is rejected. -/
theorem normalize_hash_reanchor (ds : JsStr) (h6 : ds.length = 6)
    (hall : ∀ c ∈ ds, isLowerHex c = true) :
    normalizeColor ('#' :: ds) = some ('#' :: ds) ∧
    normalizeColor ds = some ('#' :: ds) ∧
    ∀ m : ℕ, normalizeColor (List.replicate (m + 2) '#' ++ ds) = none :=
  ⟨normalizeColor_of_matches (matchesHexPattern_intro h6 hall),
   normalizeColor_of_bare_hex h6 hall,
   normalizeColor_replicate_hash hall⟩

/-- Witness for the amended C2 theorem at the digits `abc123`. -/
theorem normalize_hash_reanchor_witness :
    normalizeColor ('#' :: "abc123".data) = some ('#' :: "abc123".data) ∧
    normalizeColor "abc123".data = some ('#' :: "abc123".data) ∧
    ∀ m : ℕ, normalizeColor (List.replicate (m + 2) '#' ++ "abc123".data) = none :=
  normalize_hash_reanchor "abc123".data (by decide) (by decide)

/-- C3 (code bug): the claim says the caller never receives a value that
is not a `NormalizedColor`, but with the line-30 property access modelled
faithfully `normalizeColor "__proto__"` returns, without a throw, the
truthy inherited `Object.prototype` — a non-string value, hence not a
7-character `#`-prefixed lowercase hex string. -/
theorem normalize_proto_bug :
    normalizeColorJs "__proto__".data = some (JsValue.obj "__proto__".data) ∧
    ∀ s : JsStr, JsValue.obj "__proto__".data ≠ JsValue.str s := by
  constructor
  · decide
  · intro s h
    exact JsValue.noConfusion h

/-- C4: both compliance classifiers use lower-bound-inclusive tiers, with
the boundary values the spec lists. -/
theorem compliance_tiers :
    (∀ r : ℝ, 7 ≤ r → complianceLevel r = Level.AAA) ∧
    (∀ r : ℝ, 4.5 ≤ r → r < 7 → complianceLevel r = Level.AA) ∧
    (∀ r : ℝ, r < 4.5 → complianceLevel r = Level.Fail) ∧
    (∀ r : ℝ, 4.5 ≤ r → complianceLevelLarge r = Level.AAA) ∧
    (∀ r : ℝ, 3 ≤ r → r < 4.5 → complianceLevelLarge r = Level.AA) ∧
    (∀ r : ℝ, r < 3 → complianceLevelLarge r = Level.Fail) ∧
    complianceLevel 7 = Level.AAA ∧
    complianceLevel 4.5 = Level.AA ∧
    complianceLevel 4.49 = Level.Fail ∧
    complianceLevelLarge 3 = Level.AA ∧
    complianceLevelLarge 2.99 = Level.Fail :=
  ⟨fun _ h => complianceLevel_eq_AAA h,
   fun _ h1 h2 => complianceLevel_eq_AA h1 h2,
   fun _ h => complianceLevel_eq_Fail h,
   fun _ h => complianceLevelLarge_eq_AAA h,
   fun _ h1 h2 => complianceLevelLarge_eq_AA h1 h2,
   fun _ h => complianceLevelLarge_eq_Fail h,
   complianceLevel_eq_AAA (by norm_num),
   complianceLevel_eq_AA (by norm_num) (by norm_num),
   complianceLevel_eq_Fail (by norm_num),
   complianceLevelLarge_eq_AA (by norm_num) (by norm_num),
   complianceLevelLarge_eq_Fail (by norm_num)⟩

/-- Witness instantiating the universally quantified AAA tier of C4 at 8. -/
theorem compliance_tiers_witness : complianceLevel 8 = Level.AAA :=
  compliance_tiers.1 8 (by norm_num)

/-- C5: the contrast ratio is symmetric in its two normalized color
arguments. -/
theorem contrast_symmetric (a b : JsStr)
    (_ha : matchesHexPattern a = true) (_hb : matchesHexPattern b = true) :
    contrastRatio a b = contrastRatio b a :=
  contrastRatio_comm a b

/-- Witness for C5 at red vs white. -/
theorem contrast_symmetric_witness :
    contrastRatio "#ff0000".data "#ffffff".data =
      contrastRatio "#ffffff".data "#ff0000".data :=
  contrast_symmetric "#ff0000".data "#ffffff".data (by decide) (by decide)

/-- C6: for every pair of normalized colors, both relative luminances lie
in `[0,1]` and the contrast ratio lies in `[1,21]`. -/
theorem contrast_range (a b : JsStr)
    (_ha : matchesHexPattern a = true) (_hb : matchesHexPattern b = true) :
    (0 ≤ relativeLuminance a ∧ relativeLuminance a ≤ 1) ∧
    (0 ≤ relativeLuminance b ∧ relativeLuminance b ≤ 1) ∧
    1 ≤ contrastRatio a b ∧ contrastRatio a b ≤ 21 :=
  ⟨⟨relativeLuminance_nonneg a, relativeLuminance_le_one a⟩,
   ⟨relativeLuminance_nonneg b, relativeLuminance_le_one b⟩,
   contrastRatio_bounds a b⟩

/-- Witness for C6 at white vs black. -/
theorem contrast_range_witness :
    (0 ≤ relativeLuminance "#ffffff".data ∧ relativeLuminance "#ffffff".data ≤ 1) ∧
    (0 ≤ relativeLuminance "#000000".data ∧ relativeLuminance "#000000".data ≤ 1) ∧
    1 ≤ contrastRatio "#ffffff".data "#000000".data ∧
      contrastRatio "#ffffff".data "#000000".data ≤ 21 :=
  contrast_range "#ffffff".data "#000000".data (by decide) (by decide)

/-- C7: every string of `#` followed by 6 hex digits of either case, and
the same string without the leading `#`, normalizes successfully to the
lowercase canonical form (case folding happens before validation). -/
theorem normalize_anycase_hex (ds : JsStr) (h6 : ds.length = 6)
    (hall : ∀ c ∈ ds, isAnyCaseHex c = true) :
    normalizeColor ('#' :: ds) = some ('#' :: lowerStr ds) ∧
    normalizeColor ds = some ('#' :: lowerStr ds) :=
  ⟨normalizeColor_hash_anycase h6 hall, normalizeColor_bare_anycase h6 hall⟩

/-- Witness for C7 at `"#FFAA00"`. -/
theorem normalize_anycase_hex_witness :
    normalizeColor ('#' :: "FFAA00".data) = some ('#' :: lowerStr "FFAA00".data) ∧
    normalizeColor "FFAA00".data = some ('#' :: lowerStr "FFAA00".data) :=
  normalize_anycase_hex "FFAA00".data (by decide) (by decide)

/-- C8: reference values — white on black gives exactly 21 (hence within
`1e-9` of 21.0) and white on white gives exactly 1. -/
theorem contrast_reference_values :
    |contrastRatio "#ffffff".data "#000000".data - 21| ≤ 1e-9 ∧
    contrastRatio "#ffffff".data "#ffffff".data = 1 := by
  refine ⟨?_, contrastRatio_white_white⟩
  rw [contrastRatio_white_black, sub_self, abs_zero]
  norm_num

/-- C9: `evaluate "red" "white"` succeeds, normalizing `red` to `#ff0000`
and `white` to `#ffffff`, with contrast ratio within `1e-3` of 3.998,
normal-text level `Fail` and large-text level `AA`. -/
theorem evaluate_red_white :
    evaluate "red".data "white".data =
      some { contrastRatio := contrastRatio "#ff0000".data "#ffffff".data
           , levelSmall := Level.Fail
           , levelLarge := Level.AA
           , fg := "#ff0000".data
           , bg := "#ffffff".data } ∧
    |contrastRatio "#ff0000".data "#ffffff".data - 3.998| ≤ 1e-3 := by
  have hfg : normalizeColor "red".data = some "#ff0000".data := by decide
  have hbg : normalizeColor "white".data = some "#ffffff".data := by decide
  have hsm : complianceLevel (contrastRatio "#ff0000".data "#ffffff".data) =
      Level.Fail := by
    rw [contrastRatio_red_white]
    exact complianceLevel_eq_Fail (by norm_num)
  have hlg : complianceLevelLarge (contrastRatio "#ff0000".data "#ffffff".data) =
      Level.AA := by
    rw [contrastRatio_red_white]
    exact complianceLevelLarge_eq_AA (by norm_num) (by norm_num)
  constructor
  · unfold evaluate
    rw [hfg, hbg]
    dsimp only
    rw [hsm, hlg]
  · rw [contrastRatio_red_white, abs_le]
    constructor <;> norm_num

/-- C10: `normalizeColor` is idempotent on its successful outputs: any
value it returns is a fixed point of it. -/
theorem normalize_idempotent {s r : JsStr} (h : normalizeColor s = some r) :
    normalizeColor r = some r :=
  normalizeColor_of_matches (normalizeColor_matches h)

/-- Witness for C10 at the input `"red"`. -/
theorem normalize_idempotent_witness :
    normalizeColor "#ff0000".data = some "#ff0000".data :=
  @normalize_idempotent "red".data "#ff0000".data (by decide)

end Claims

end ContrastChecker
